import Mathlib

/-!
Shallow embedding of the 2nd-Brain personal knowledge indexer
(src/database.py, src/orchestrator.py, src/services/embed.py, src/search.py)
and proofs about the claims of its specification.

Conventions used throughout:
* SQLite tables are lists of row structures; SQL statements become list
  transformations translated statement-for-statement from database.py.
* Python floats (file mtimes, scores) are modelled as exact rationals: the
  claims only compare and average them, which rationals do faithfully.
* Embedding blobs are opaque byte strings; no claim inspects their numeric
  content, so similarity scores are supplied by an oracle function where needed.
* Fallible Python code is modelled with Except / Option; a caught exception
  is an Except.error consumed at the call site exactly where the source has
  a try/except.
-/

/-- Row of the `tasks` table (database.py `_setup_tables`): primary key
(path, task_type), with status and file_mtime. -/
structure TaskRow where
  path : String
  task_type : String
  status : String
  file_mtime : ℚ
deriving Repr, DecidableEq

/-- Row of the `ocr_results` table: primary key path. -/
structure OcrRow where
  path : String
  text_content : String
  model_name : String
deriving Repr, DecidableEq

/-- Row of the `embeddings` table: primary key (path, chunk_index); the
embedding blob is kept as an opaque byte string. -/
structure EmbRow where
  path : String
  chunk_index : ℤ
  text_content : String
  embedding : String
  model_name : String
deriving Repr, DecidableEq

/-- Row of the `llm_analysis` table: primary key path. -/
structure LlmRow where
  path : String
  response : String
  model_name : String
deriving Repr, DecidableEq

/-- Row of the FTS5 virtual table `search_index(path, content, source)`. -/
structure SearchRow where
  path : String
  content : String
  source : String
deriving Repr, DecidableEq

/-- The whole SQLite store of database.py. -/
structure Db where
  tasks : List TaskRow
  ocr_results : List OcrRow
  embeddings : List EmbRow
  llm_analysis : List LlmRow
  search_index : List SearchRow
deriving Repr, DecidableEq

/-- The empty store right after `_setup_tables`. -/
def Db.empty : Db := ⟨[], [], [], [], []⟩

/-- The CASE expression of triggers t_embed_insert / t_embed_delete:
source is llm for a negative chunk_index, embed otherwise. -/
def embSource (chunk_index : ℤ) : String :=
  if chunk_index < 0 then "llm" else "embed"

/-- Trigger t_embed_insert (database.py lines 93-103): inserting an
embeddings row appends one search_index row whose content is
path || space || text_content. -/
def t_embed_insert (si : List SearchRow) (r : EmbRow) : List SearchRow :=
  si ++ [⟨r.path, r.path ++ " " ++ r.text_content, embSource r.chunk_index⟩]

/-- Trigger t_embed_delete (database.py lines 107-114): deleting an
embeddings row removes every search_index row with the same path and the
matching llm/embed source. -/
def t_embed_delete (si : List SearchRow) (r : EmbRow) : List SearchRow :=
  si.filter (fun s => !(s.path == r.path && s.source == embSource r.chunk_index))

/-- Trigger t_ocr_insert (database.py lines 118-124). -/
def t_ocr_insert (si : List SearchRow) (r : OcrRow) : List SearchRow :=
  si ++ [⟨r.path, r.path ++ " " ++ r.text_content, "ocr"⟩]

/-- Trigger t_ocr_delete (database.py lines 127-132). -/
def t_ocr_delete (si : List SearchRow) (r : OcrRow) : List SearchRow :=
  si.filter (fun s => !(s.path == r.path && s.source == "ocr"))

/-- Database.add_or_update_task (database.py lines 139-149): INSERT with
ON CONFLICT(path, task_type) DO UPDATE SET status = excluded.status,
file_mtime = CASE WHEN excluded.file_mtime > 0 THEN excluded.file_mtime
ELSE tasks.file_mtime END. -/
def Db.add_or_update_task (db : Db) (p task_type status : String) (mtime : ℚ) : Db :=
  if db.tasks.any (fun r => r.path == p && r.task_type == task_type) then
    { db with tasks := db.tasks.map (fun r =>
        if r.path == p && r.task_type == task_type then
          { r with status := status,
                   file_mtime := if mtime > 0 then mtime else r.file_mtime }
        else r) }
  else
    { db with tasks := db.tasks ++ [⟨p, task_type, status, mtime⟩] }

/-- Database.mark_completed (database.py lines 189-197): UPDATE tasks SET
status = DONE WHERE path AND task_type match (no-op when absent). -/
def Db.mark_completed (db : Db) (p task_type : String) : Db :=
  { db with tasks := db.tasks.map (fun r =>
      if r.path == p && r.task_type == task_type then { r with status := "DONE" } else r) }

/-- Database.get_llm_result (database.py lines 215-219). -/
def Db.get_llm_result (db : Db) (p : String) : Option String :=
  (db.llm_analysis.find? (fun r => r.path == p)).map (·.response)

/-- Database.save_ocr_result (database.py lines 256-262): INSERT OR REPLACE
into ocr_results.  SQLite runs with the default PRAGMA recursive_triggers
= OFF, under which the implicit row deletion performed by REPLACE conflict
resolution does NOT fire delete triggers; only the insertion fires
t_ocr_insert.  So an existing row for the path is silently replaced while
a fresh search_index row is appended. -/
def Db.save_ocr_result (db : Db) (p text model_name : String) : Db :=
  let row : OcrRow := ⟨p, text, model_name⟩
  { db with
      ocr_results := db.ocr_results.filter (fun r => !(r.path == p)) ++ [row],
      search_index := t_ocr_insert db.search_index row }

/-- Database.save_embeddings(self, data) (database.py lines 264-291), the
single-argument rows API: data rows are (path, chunk_index, text_content,
embedding, model_name).  It first deletes the existing rows of the same
sign class (negative chunk_index when any incoming row is negative, else
non-negative) for the referenced paths — these deletions fire
t_embed_delete — then inserts the batch, firing t_embed_insert per row.
The exercised inputs contain no (path, chunk_index) conflicts, so the
plain INSERT never hits the primary key. -/
def Db.save_embeddings (db : Db) (data : List EmbRow) : Db :=
  let paths := (data.map (·.path)).dedup
  let is_llm_update := data.any (fun r => decide (r.chunk_index < 0))
  let doomedP := fun (r : EmbRow) =>
    paths.contains r.path &&
      (if is_llm_update then decide (r.chunk_index < 0) else decide (0 ≤ r.chunk_index))
  let doomed := db.embeddings.filter doomedP
  let si1 := doomed.foldl t_embed_delete db.search_index
  let kept := db.embeddings.filter (fun r => !(doomedP r))
  { db with
      embeddings := kept ++ data,
      search_index := data.foldl t_embed_insert si1 }

/-- Lookup of the tasks row with the given primary key (first match). -/
def Db.findTask (db : Db) (p task_type : String) : Option TaskRow :=
  db.tasks.find? (fun r => r.path == p && r.task_type == task_type)

/-- Number of search_index rows carrying OCR text for a path. -/
def Db.ocrSearchRowCount (db : Db) (p : String) : ℕ :=
  (db.search_index.filter (fun s => s.path == p && s.source == "ocr")).length

/-- Whether any table of the store still references a path. -/
def Db.referencesPath (db : Db) (p : String) : Bool :=
  db.tasks.any (fun r => r.path == p) ||
  db.ocr_results.any (fun r => r.path == p) ||
  db.embeddings.any (fun r => r.path == p) ||
  db.llm_analysis.any (fun r => r.path == p) ||
  db.search_index.any (fun r => r.path == p)

/-- One of the five DELETE statements of Database.remove_tasks_bulk
(database.py lines 162-166), in source order: ocr_results, embeddings,
llm_analysis, search_index, tasks.  The two delete-side triggers are
dropped beforehand (lines 158-159), so the ocr_results and embeddings
deletes do not touch search_index; only the explicit statement does. -/
def bulkDeleteStmt (paths : List String) (i : ℕ) (db : Db) : Db :=
  match i with
  | 0 => { db with ocr_results := db.ocr_results.filter (fun r => !(paths.contains r.path)) }
  | 1 => { db with embeddings := db.embeddings.filter (fun r => !(paths.contains r.path)) }
  | 2 => { db with llm_analysis := db.llm_analysis.filter (fun r => !(paths.contains r.path)) }
  | 3 => { db with search_index := db.search_index.filter (fun r => !(paths.contains r.path)) }
  | _ => { db with tasks := db.tasks.filter (fun r => !(paths.contains r.path)) }

/-- Database.remove_tasks_bulk (database.py lines 151-187) with a fault
oracle: failAt = some i means the i-th DELETE raises (disk error, locked
database, ...).  Control flow of the source: an empty path list returns
early (Python returns None); the five DELETEs run inside one implicit
transaction; on success the try block commits and returns True; on an
exception the except block logs and returns False — the error is not
re-raised — and the finally block calls conn.executescript to restore the
triggers, which first COMMITS the pending transaction (documented
behaviour of sqlite3 Cursor.executescript), so the deletes before the
failing statement stay committed.  Hence the committed store is the fold
of the statements before the failure point. -/
def Db.remove_tasks_bulk (db : Db) (paths : List String) (failAt : Option (Fin 5)) :
    Db × Option Bool :=
  if paths.isEmpty then (db, none)
  else
    let k : ℕ := match failAt with
      | none => 5
      | some i => i.val
    let stmts := [bulkDeleteStmt paths 0, bulkDeleteStmt paths 1, bulkDeleteStmt paths 2,
      bulkDeleteStmt paths 3, bulkDeleteStmt paths 4]
    ((stmts.take k).foldl (fun d f => f d) db, some failAt.isNone)

/-- The loaded flags of the model registry handles consulted by the
orchestrator (keys ocr, text, image, llm of the models dict). -/
structure ModelsLoaded where
  ocr : Bool
  text : Bool
  image : Bool
  llm : Bool
deriving Repr, DecidableEq

/-- The Job dataclass of orchestrator.py (priority, task_type, path). -/
structure Job where
  priority : ℤ
  task_type : String
  path : String
deriving Repr, DecidableEq

/-- Orchestrator.is_model_available (orchestrator.py lines 77-89).  Note
that for EMBED it requires BOTH embedders and never looks at the file. -/
def is_model_available (m : ModelsLoaded) (task_type : String) : Bool :=
  if task_type == "OCR" then m.ocr
  else if task_type == "EMBED" then m.text && m.image
  else if task_type == "EMBED_LLM" then m.text
  else if task_type == "LLM" then m.llm
  else if task_type == "DELETE" then true
  else false

/-- Orchestrator state visible to submit_task: the store plus the contents
of the in-memory priority queue (only membership matters here; queue.put
appends). -/
structure OrchState where
  db : Db
  queue : List Job
deriving Repr, DecidableEq

/-- Orchestrator.submit_task (orchestrator.py lines 91-102): always upsert
the task as PENDING first, then enqueue only when is_model_available. -/
def submit_task (m : ModelsLoaded) (s : OrchState) (task_type p : String)
    (priority : ℤ) (mtime : ℚ) : OrchState :=
  let db1 := s.db.add_or_update_task p task_type "PENDING" mtime
  if is_model_available m task_type then
    { db := db1, queue := s.queue ++ [⟨priority, task_type, p⟩] }
  else
    { db := db1, queue := s.queue }

/-- A search-result entry as built by get_lexical / get_semantic
(search.py): path, preview content, result type, score, match_type.  The
embedding field carried for the downstream MMR rerank plays no part in
the claimed fusion rule and is omitted. -/
structure SemResult where
  path : String
  content : String
  rtype : String
  score : ℚ
  matchType : String
deriving Repr, DecidableEq

/-- normalize_scores inside hybrid_search (search.py lines 268-276):
min-max normalization of a stream's scores; when max = min every score
becomes 1 (np.ones_like); the empty stream is returned as is. -/
def normalize_scores (l : List SemResult) : List SemResult :=
  match l with
  | [] => []
  | x :: xs =>
    let scores := (x :: xs).map SemResult.score
    let mx := scores.foldl max x.score
    let mn := scores.foldl min x.score
    if mx = mn then (x :: xs).map (fun r => { r with score := 1 })
    else (x :: xs).map (fun r => { r with score := (r.score - mn) / (mx - mn) })

/-- One step of merge_in inside hybrid_search (search.py lines 282-291):
the combined map is keyed by path; a new path is appended, a colliding
path averages the scores and becomes Hybrid while every other field of
the existing entry is kept. -/
def merge_one (m : List SemResult) (r : SemResult) : List SemResult :=
  if m.any (fun x => x.path == r.path) then
    m.map (fun x => if x.path == r.path then
      { x with score := (x.score + r.score) / 2, matchType := "Hybrid" } else x)
  else m ++ [r]

/-- The fusion stage of hybrid_search (search.py lines 264-296): normalize
both streams, then fold the lexical results and after them the semantic
results into the insertion-ordered combined map.  The later MMR rerank,
quality weighting and OCR hydration reorder and rescale entries but are
not part of the claimed fusion rule. -/
def hybrid_fuse (lex sem : List SemResult) : List SemResult :=
  (normalize_scores sem).foldl merge_one ((normalize_scores lex).foldl merge_one [])

/-- First combined-map entry for a path. -/
def findPath (l : List SemResult) (p : String) : Option SemResult :=
  l.find? (fun r => r.path == p)

/-- The extension clause of get_semantic's SELECT (search.py lines
213-214): path LIKE one of the listed suffixes. -/
def pathEndsWithAny (p : String) (exts : List String) : Bool :=
  exts.any (fun e => List.isSuffixOf e.data p.data)

/-- _build_path_filter (search.py lines 85-92): no clause when no folder
(or the sentinel All) is supplied, else a LIKE prefix on the folder path
(os.path.normpath is the identity on the already-normalized path strings
modelled here). -/
def folderOk (folder : Option String) (p : String) : Bool :=
  match folder with
  | none => true
  | some f => List.isPrefixOf f.data p.data

/-- The best_per_file loop of get_semantic (search.py lines 231-249): an
insertion-ordered map keyed by path; a higher-scoring row replaces the
whole stored entry in place. -/
def bestPerFileSem (stype : String) (sim : String → ℚ) (rows : List EmbRow) :
    List SemResult :=
  rows.foldl (fun m r =>
    let score := sim r.embedding
    if m.any (fun x => x.path == r.path) then
      m.map (fun x =>
        if x.path == r.path && decide (score > x.score) then
          ⟨r.path, r.text_content, stype, score, "Semantic"⟩
        else x)
    else m ++ [⟨r.path, r.text_content, stype, score, "Semantic"⟩]) []

/-- Stable descending insertion by score (Python's stable list sort with
reverse=True). -/
def insertDescSem (r : SemResult) : List SemResult → List SemResult
  | [] => [r]
  | x :: xs => if r.score ≥ x.score then r :: x :: xs else x :: insertDescSem r xs

/-- Stable descending sort by score. -/
def sortDescSem (l : List SemResult) : List SemResult :=
  l.foldr insertDescSem []

/-- SearchEngine.get_semantic (search.py lines 192-258).  The SELECT at
line 223 filters the embeddings table ONLY by path extension and the
optional folder prefix — model_name never appears in the query or in the
loop.  The numeric pipeline (query encoding, normalization and the dot
product against each stored blob, lines 203-238) is abstracted as the
score oracle `sim` from blob bytes to score; the claims under study
concern which rows enter the computation, not the score values. -/
def get_semantic (db : Db) (stype : String) (sim : String → ℚ) (modelLoaded : Bool)
    (valid_exts : List String) (folder : Option String) (top_k : ℕ) : List SemResult :=
  if !modelLoaded || valid_exts.isEmpty then []
  else
    (sortDescSem (bestPerFileSem stype sim (db.embeddings.filter (fun r =>
      pathEndsWithAny r.path valid_exts && folderOk folder r.path)))).take top_k

/-- Rewriting every stored embedding row's model_name through f (for
example, the store as it would look had a different embedder produced the
rows). -/
def Db.withModelNames (db : Db) (f : String → String) : Db :=
  { db with embeddings := db.embeddings.map (fun r => { r with model_name := f r.model_name }) }

/-- Database.save_llm_result (database.py lines 293-300): INSERT OR
REPLACE into llm_analysis; no trigger watches this table. -/
def Db.save_llm_result (db : Db) (p response model_name : String) : Db :=
  { db with llm_analysis :=
      db.llm_analysis.filter (fun r => !(r.path == p)) ++ [⟨p, response, model_name⟩] }

/-- Positional-argument values crossing the EmbedService → Database call
boundary: a path string, the 4-column rows (chunk_index, chunk_text,
vector_bytes, model_name) built in _run_text_batch (embed.py line 98),
or the 5-column rows the Database API actually expects. -/
inductive PyVal
  | vStr (s : String)
  | vRows4 (rows : List (ℤ × String × String × String))
  | vRows5 (rows : List EmbRow)
deriving Repr, DecidableEq

/-- Python-level errors arising in the embedding pipeline. -/
inductive PyErr
  | typeError
  | programmingError
  | attributeError
deriving Repr, DecidableEq

/-- The Python callable Database.save_embeddings(self, data) (database.py
lines 264-291) applied to a positional argument list.  The signature has
exactly ONE parameter after self, so a two-argument call raises TypeError
before any statement runs.  A single argument of the proper 5-column rows
shape executes Db.save_embeddings; a single argument of any other shape
would die in the SQL layer (the INSERT at line 287 binds five
placeholders), raising sqlite3.ProgrammingError — no caller exercises
that case. -/
def database_save_embeddings_apply (db : Db) (args : List PyVal) : Except PyErr Db :=
  match args with
  | [PyVal.vRows5 data] => Except.ok (db.save_embeddings data)
  | [_] => Except.error PyErr.programmingError
  | _ => Except.error PyErr.typeError

/-- One (index, chunk_text, job_path) entry of all_chunks_data in
_run_text_batch (embed.py lines 52-74). -/
structure ChunkData where
  index : ℤ
  chunk_text : String
  job_path : String
deriving Repr, DecidableEq

/-- The all_chunks_data accumulation of _run_text_batch (embed.py lines
59-74): parse stands for process_text_file, whose chunker is external to
this repository's core; a file parsing to no chunks contributes
nothing. -/
def all_chunks_of (parse : String → List (ℤ × String)) (jobs : List Job) : List ChunkData :=
  jobs.foldl (fun acc job =>
    acc ++ (parse job.path).map (fun ic => ChunkData.mk ic.1 ic.2 job.path)) []

/-- EmbedService._run_text_batch (embed.py lines 47-105).  encodeOk models
whether text_model.encode returned vectors (None or an exception yield
the early [] returns of lines 82-88); vec i is the byte string of the
i-th returned vector.  Each chunk is then saved with the
TWO-positional-argument call `self.db.save_embeddings(job_path, [(index,
chunk_text, vector_bytes, model_name)])` of lines 96-99, whose failure
is caught per chunk by the except of lines 101-102, leaving
successful_paths untouched. -/
def run_text_batch (db : Db) (textLoaded : Bool) (parse : String → List (ℤ × String))
    (encodeOk : Bool) (vec : ℕ → String) (model_name : String) (jobs : List Job) :
    Db × List String :=
  if !textLoaded then (db, [])
  else if (all_chunks_of parse jobs).isEmpty then (db, [])
  else if !encodeOk then (db, [])
  else
    (all_chunks_of parse jobs).enum.foldl (fun st x =>
      match database_save_embeddings_apply st.1
          [PyVal.vStr x.2.job_path,
           PyVal.vRows4 [(x.2.index, x.2.chunk_text, vec x.1, model_name)]] with
      | Except.ok db1 =>
        (db1, if st.2.contains x.2.job_path then st.2 else st.2 ++ [x.2.job_path])
      | Except.error _ => st) (db, [])

/-- Orchestrator._execute_batch_embed for a text batch (orchestrator.py
lines 259-282): bail out leaving tasks PENDING when the text embedder is
unloaded; otherwise run the batch and mark every path in the returned
success set DONE for EMBED and every other path FAILED. -/
def execute_batch_embed_text (db : Db) (models : ModelsLoaded)
    (parse : String → List (ℤ × String)) (encodeOk : Bool) (vec : ℕ → String)
    (model_name : String) (jobs : List Job) : Db :=
  if !models.text then db
  else
    let res := run_text_batch db models.text parse encodeOk vec model_name jobs
    jobs.foldl (fun d job =>
      if res.2.contains job.path then d.mark_completed job.path "EMBED"
      else d.add_or_update_task job.path "EMBED" "FAILED" 0) res.1

/-- The attribute names defined on EmbedService (the def statements of
src/services/embed.py). -/
def embedServiceAttrs : List String :=
  ["__init__", "run_batch", "_run_text_batch", "_run_image_batch", "run_summary_embed"]

/-- Embedding of the call `self.embed_service.run_embed_llm(job)` at
orchestrator.py line 320.  Python resolves the attribute on the
EmbedService instance before calling; embed.py defines only the methods
in embedServiceAttrs, so the lookup raises AttributeError.  The ok branch
— what would run had the attribute existed — is unreachable (its guard is
decidably false); even run_summary_embed itself would fail, as it calls
the likewise nonexistent Database.save_summary_embedding (embed.py line
187). -/
def embed_service_run_embed_llm_call (db : Db) (_p : String) : Except PyErr (Db × Bool) :=
  if embedServiceAttrs.contains "run_embed_llm" then Except.ok (db, false)
  else Except.error PyErr.attributeError

/-- Orchestrator._execute_job for task_type EMBED_LLM (orchestrator.py
lines 315-331): an unloaded text embedder leaves the task untouched;
success marks DONE, a False return marks FAILED, and any exception —
here the AttributeError from the missing method — is caught by the
except block of lines 327-329, which also marks the task FAILED. -/
def execute_job_embed_llm (db : Db) (textLoaded : Bool) (p : String) : Db :=
  if !textLoaded then db
  else
    match embed_service_run_embed_llm_call db p with
    | Except.ok (db1, true) => db1.mark_completed p "EMBED_LLM"
    | Except.ok (db1, false) => db1.add_or_update_task p "EMBED_LLM" "FAILED" 0
    | Except.error _ => db.add_or_update_task p "EMBED_LLM" "FAILED" 0

/-- Observable state of the dispatcher thread of _dispatch_loop
(orchestrator.py lines 121-177) in C5's scenario: every one of the
max_workers semaphore slots is held by a dispatched job whose worker
thread never returns.  semFree counts free slots; inLoopBody is whether
the dispatcher got past pool_semaphore.acquire() at line 123 into the
loop body — flush checks and _check_timeouts (lines 129-139) run only
there; jobStatus is the stuck job's tasks row status; elapsed counts
abstract seconds. -/
structure DispatchState where
  semFree : ℕ
  inLoopBody : Bool
  jobStatus : String
  elapsed : ℕ
deriving Repr, DecidableEq

/-- Transitions available in the scenario.  tick: time passes.  acquire:
pool_semaphore.acquire() returns, which needs a free slot.
timeoutCheck: _check_timeouts (orchestrator.py lines 179-199) marks the
overdue job FAILED and releases its slot — callable only from inside the
loop body.  The hung worker threads contribute no transition: they never
reach the finally block of _execute_job_wrapper. -/
inductive DispatchStep : DispatchState → DispatchState → Prop
  | tick (s : DispatchState) :
      DispatchStep s { s with elapsed := s.elapsed + 1 }
  | acquire (s : DispatchState) (h : 0 < s.semFree) (h2 : s.inLoopBody = false) :
      DispatchStep s { s with semFree := s.semFree - 1, inLoopBody := true }
  | timeoutCheck (s : DispatchState) (h : s.inLoopBody = true) :
      DispatchStep s { s with jobStatus := "FAILED", semFree := s.semFree + 1 }

/-- Reflexive-transitive closure of DispatchStep. -/
inductive DispatchReach : DispatchState → DispatchState → Prop
  | refl (s : DispatchState) : DispatchReach s s
  | step (s t u : DispatchState) :
      DispatchReach s t → DispatchStep t u → DispatchReach s u

/-- The instant after every worker slot was handed to a hung job: no slot
free, dispatcher back at the blocking acquire, the job's row still
PENDING. -/
def hungInit : DispatchState := ⟨0, false, "PENDING", 0⟩

/-- The (path, task_type) key of the active_jobs map. -/
abbrev JKey := String × String

/-- Events of the worker-pool slot bookkeeping, indexed by a job number j
so two dispatched jobs with the same (path, task_type) key stay
distinguishable.  clockIn j: the wrapper registers — overwriting on
collision — active_jobs[key] (orchestrator.py line 207).  clockOut j:
the wrapper's finally block (lines 212-223) removes the entry at the
job's key and releases the slot only if the key is still present.
sweep j: _check_timeouts (lines 184-199) removes the entry at the job's
key and releases the slot; which entries count as overdue depends on
real time, so every sweep interleaving is admitted. -/
inductive JEvent
  | clockIn (j : ℕ)
  | clockOut (j : ℕ)
  | sweep (j : ℕ)
deriving Repr, DecidableEq

/-- The job index an event belongs to. -/
def JEvent.idx : JEvent → ℕ
  | JEvent.clockIn j => j
  | JEvent.clockOut j => j
  | JEvent.sweep j => j

/-- Whether the active_jobs map holds an entry at key k. -/
def hasKey (m : List (JKey × ℕ)) (k : JKey) : Bool :=
  m.any (fun kv => decide (kv.1 = k))

/-- Removing the entry at key k. -/
def eraseKey (m : List (JKey × ℕ)) (k : JKey) : List (JKey × ℕ) :=
  m.filter (fun kv => !(decide (kv.1 = k)))

/-- How many releases were logged for key k. -/
def countKey (l : List JKey) (k : JKey) : ℕ :=
  (l.filter (fun x => decide (x = k))).length

/-- The active_jobs dict plus the log of pool_semaphore.release() calls
made by the wrapper cleanup and the watchdog; each log entry records the
key whose entry removal triggered the release. -/
structure PoolState where
  active : List (JKey × ℕ)
  relLog : List JKey
deriving Repr, DecidableEq

/-- One bookkeeping event, with key : job index → (path, task_type). -/
def poolStep (key : ℕ → JKey) (s : PoolState) : JEvent → PoolState
  | JEvent.clockIn j => { s with active := (key j, j) :: eraseKey s.active (key j) }
  | JEvent.clockOut j =>
    if hasKey s.active (key j) then
      { active := eraseKey s.active (key j), relLog := s.relLog ++ [key j] }
    else s
  | JEvent.sweep j =>
    if hasKey s.active (key j) then
      { active := eraseKey s.active (key j), relLog := s.relLog ++ [key j] }
    else s

/-- Running a whole event trace from the empty map. -/
def poolRun (key : ℕ → JKey) (tr : List JEvent) : PoolState :=
  tr.foldl (poolStep key) ⟨[], []⟩

/-- An event as seen from one fixed key. -/
inductive E1
  | inn
  | outt
  | swp
deriving Repr, DecidableEq

/-- Forgetting the job index of an event. -/
def projE : JEvent → E1
  | JEvent.clockIn _ => E1.inn
  | JEvent.clockOut _ => E1.outt
  | JEvent.sweep _ => E1.swp

/-- The subtrace of events belonging to job j. -/
def proj (j : ℕ) (tr : List JEvent) : List E1 :=
  (tr.filter (fun e => decide (e.idx = j))).map projE

/-- Presence of the entry and release count at a single key evolve by this
two-field machine. -/
def step1 : Bool × ℕ → E1 → Bool × ℕ
  | (_, c), E1.inn => (true, c)
  | (pres, c), E1.outt => if pres then (false, c + 1) else (pres, c)
  | (pres, c), E1.swp => if pres then (false, c + 1) else (pres, c)

/-- Presence and release count at key k in a pool state. -/
def localView (s : PoolState) (k : JKey) : Bool × ℕ :=
  (hasKey s.active k, countKey s.relLog k)

/-- Helper: mapping an update over exactly the rows selected by P moves a
find? result through the update, provided the update preserves P. -/
theorem find?_map_ite {α : Type} (P : α → Bool) (f : α → α) (hP : ∀ x, P (f x) = P x) :
    ∀ (l : List α) (r : α), l.find? P = some r →
      (l.map (fun x => if P x then f x else x)).find? P = some (f r) := by
  intro l
  induction l with
  | nil => intro r h; simp at h
  | cons hd tl ih =>
    intro r h
    by_cases hhd : P hd = true
    · rw [List.find?_cons_of_pos _ hhd] at h
      cases h
      simp only [List.map_cons, if_pos hhd]
      exact List.find?_cons_of_pos _ (by rw [hP]; exact hhd)
    · rw [List.find?_cons_of_neg _ hhd] at h
      simp only [List.map_cons, if_neg hhd]
      rw [List.find?_cons_of_neg _ hhd]
      exact ih r h

/-- C10 confirmed: on an existing (path, task_type) row, add_or_update_task
always overwrites the status with the supplied one, overwrites file_mtime
exactly when the supplied mtime is positive, and keeps the stored
file_mtime whenever the supplied mtime is not positive — in particular a
zero mtime never overwrites a positive stored one. -/
theorem c10_upsert_mtime_guard (db : Db) (p task_type status : String) (m : ℚ)
    (r : TaskRow) (hfind : db.findTask p task_type = some r) :
    (db.add_or_update_task p task_type status m).findTask p task_type =
      some { r with status := status,
                    file_mtime := if m > 0 then m else r.file_mtime } := by
  have hfind0 : db.tasks.find? (fun t => t.path == p && t.task_type == task_type) = some r := hfind
  have hpr0 := List.find?_some hfind0
  have hpr : (r.path == p && r.task_type == task_type) = true := by simpa using hpr0
  have hmemr : r ∈ db.tasks := List.mem_of_find?_eq_some hfind0
  have hany : db.tasks.any (fun t => t.path == p && t.task_type == task_type) = true := by
    rw [List.any_eq_true]
    exact ⟨r, hmemr, hpr⟩
  have key := find?_map_ite (fun t : TaskRow => t.path == p && t.task_type == task_type)
      (fun t => { t with status := status, file_mtime := if m > 0 then m else t.file_mtime })
      (fun _ => rfl) db.tasks r hfind0
  unfold Db.add_or_update_task Db.findTask
  rw [if_pos hany]
  exact key

/-- C2 code_bug: calling save_ocr_result a second time for a path that
already has an OCR result leaves ONE ocr_results row but TWO search_index
rows with source ocr for that path.  INSERT OR REPLACE runs under SQLite's
default recursive_triggers = OFF, so the implicit delete of the replaced
row does not fire t_ocr_delete while the insert fires t_ocr_insert; the
trigger-maintained one-row-per-artifact invariant is broken. -/
theorem c2_ocr_resave_duplicates_search_index :
    ((Db.empty.save_ocr_result "img.png" "first scan" "ocr-model").save_ocr_result
        "img.png" "second scan" "ocr-model").ocr_results =
      [⟨"img.png", "second scan", "ocr-model"⟩] ∧
    Db.ocrSearchRowCount
      ((Db.empty.save_ocr_result "img.png" "first scan" "ocr-model").save_ocr_result
        "img.png" "second scan" "ocr-model") "img.png" = 2 := by
  exact ⟨rfl, rfl⟩

/-- Helper: filtering out every row whose path is listed makes any search
for a listed path come up empty. -/
theorem any_filter_not_contains {α : Type} (pathOf : α → String) (l : List α)
    (paths : List String) (p : String) (hp : p ∈ paths) :
    ((l.filter (fun r => !(paths.contains (pathOf r)))).any (fun r => pathOf r == p)) = false := by
  rw [List.any_eq_false]
  intro r hr
  rw [List.mem_filter] at hr
  intro hbeq
  have hEq : pathOf r = p := beq_iff_eq.mp hbeq
  have hnc : paths.contains (pathOf r) = false := by
    have h2 := hr.2
    simpa using h2
  rw [hEq] at hnc
  have hc : paths.contains p = true := List.elem_iff.mpr hp
  rw [hc] at hnc
  exact absurd hnc (by simp)

/-- C4 counterexample: with one path present in every table and the third
DELETE statement failing, remove_tasks_bulk leaves the store neither fully
cleaned nor unchanged — the claimed all-or-nothing disjunction is false at
this input (and the error is swallowed into a False return). -/
theorem c4_counterexample :
    ¬(((Db.mk [⟨"p", "EMBED", "DONE", 1⟩] [⟨"p", "scan", "m"⟩] [⟨"p", 0, "chunk", "B", "m"⟩]
          [⟨"p", "resp", "m"⟩] [⟨"p", "p scan", "ocr"⟩]).remove_tasks_bulk ["p"]
            (some 2)).1.referencesPath "p" = false ∨
      ((Db.mk [⟨"p", "EMBED", "DONE", 1⟩] [⟨"p", "scan", "m"⟩] [⟨"p", 0, "chunk", "B", "m"⟩]
          [⟨"p", "resp", "m"⟩] [⟨"p", "p scan", "ocr"⟩]).remove_tasks_bulk ["p"]
            (some 2)).1 =
        Db.mk [⟨"p", "EMBED", "DONE", 1⟩] [⟨"p", "scan", "m"⟩] [⟨"p", 0, "chunk", "B", "m"⟩]
          [⟨"p", "resp", "m"⟩] [⟨"p", "p scan", "ocr"⟩]) := by
  decide

/-- C4 corrected: on success remove_tasks_bulk removes every row referencing
the paths in one committed transaction and returns True; on a failing
DELETE it returns False instead of propagating the error, and the
statements executed before the failure stay committed (shown here for a
failure at the third statement: ocr_results and embeddings are already
purged while llm_analysis, search_index and tasks are untouched). -/
theorem c4_remove_paths_bulk_amended (db : Db) (paths : List String) (p : String)
    (hp : p ∈ paths) :
    (db.remove_tasks_bulk paths none).1.referencesPath p = false ∧
    (db.remove_tasks_bulk paths none).2 = some true ∧
    (∀ i : Fin 5, (db.remove_tasks_bulk paths (some i)).2 = some false) ∧
    (db.remove_tasks_bulk paths (some 2)).1.ocr_results =
      db.ocr_results.filter (fun r => !(paths.contains r.path)) ∧
    (db.remove_tasks_bulk paths (some 2)).1.embeddings =
      db.embeddings.filter (fun r => !(paths.contains r.path)) ∧
    (db.remove_tasks_bulk paths (some 2)).1.tasks = db.tasks ∧
    (db.remove_tasks_bulk paths (some 2)).1.search_index = db.search_index := by
  have hne : paths.isEmpty = false := by
    cases paths with
    | nil => cases hp
    | cons a l => rfl
  have h1 := any_filter_not_contains TaskRow.path db.tasks paths p hp
  have h2 := any_filter_not_contains OcrRow.path db.ocr_results paths p hp
  have h3 := any_filter_not_contains EmbRow.path db.embeddings paths p hp
  have h4 := any_filter_not_contains LlmRow.path db.llm_analysis paths p hp
  have h5 := any_filter_not_contains SearchRow.path db.search_index paths p hp
  refine ⟨?_, ?_, ?_, ?_, ?_, ?_, ?_⟩
  · simp only [Db.remove_tasks_bulk, hne, Bool.false_eq_true, if_false, List.take,
      List.foldl, bulkDeleteStmt, Db.referencesPath]
    rw [h1, h2, h3, h4, h5]
    rfl
  · simp [Db.remove_tasks_bulk, hne]
  · intro i
    simp [Db.remove_tasks_bulk, hne]
  · simp [Db.remove_tasks_bulk, hne, List.take, List.foldl, bulkDeleteStmt]
  · simp [Db.remove_tasks_bulk, hne, List.take, List.foldl, bulkDeleteStmt]
  · simp [Db.remove_tasks_bulk, hne, List.take, List.foldl, bulkDeleteStmt]
  · simp [Db.remove_tasks_bulk, hne, List.take, List.foldl, bulkDeleteStmt]

/-- Witness for C4's amended theorem at a concrete store and path list. -/
theorem c4_remove_paths_bulk_amended_witness :
    ("p" ∈ ["p"]) ∧
    ((Db.mk [⟨"p", "EMBED", "DONE", 1⟩] [⟨"p", "scan", "m"⟩] [⟨"p", 0, "chunk", "B", "m"⟩]
        [⟨"p", "resp", "m"⟩] [⟨"p", "p scan", "ocr"⟩]).remove_tasks_bulk ["p"]
          none).1.referencesPath "p" = false :=
  ⟨by decide,
    (c4_remove_paths_bulk_amended
      (Db.mk [⟨"p", "EMBED", "DONE", 1⟩] [⟨"p", "scan", "m"⟩] [⟨"p", 0, "chunk", "B", "m"⟩]
        [⟨"p", "resp", "m"⟩] [⟨"p", "p scan", "ocr"⟩]) ["p"] "p" (by decide)).1⟩

/-- C7 counterexample: with the text embedder loaded and the image embedder
unloaded, submitting an EMBED task for a text file does NOT enqueue the
job (the task only sleeps PENDING in the store), because
is_model_available requires BOTH embedders for EMBED — refuting the claim
that the text embedder alone suffices for a text file. -/
theorem c7_counterexample :
    (submit_task ⟨false, true, false, false⟩ ⟨Db.empty, []⟩ "EMBED" "a.txt" 2 10).queue = [] ∧
    (submit_task ⟨false, true, false, false⟩ ⟨Db.empty, []⟩ "EMBED" "a.txt" 2 10).db.findTask
        "a.txt" "EMBED" = some ⟨"a.txt", "EMBED", "PENDING", 10⟩ := by
  exact ⟨rfl, rfl⟩

/-- C7 corrected: submit_task for EMBED always stores the task PENDING and
enqueues the job exactly when BOTH the text and the image embedder are
loaded — the gate never depends on the file's kind or extension. -/
theorem c7_embed_gating_amended (m : ModelsLoaded) (s : OrchState) (p : String)
    (pr : ℤ) (mt : ℚ) :
    (submit_task m s "EMBED" p pr mt).queue =
      (if m.text && m.image then s.queue ++ [⟨pr, "EMBED", p⟩] else s.queue) ∧
    (submit_task m s "EMBED" p pr mt).db =
      s.db.add_or_update_task p "EMBED" "PENDING" mt := by
  constructor
  · by_cases h : (m.text && m.image) = true <;>
      simp [submit_task, is_model_available, h]
  · by_cases h : (m.text && m.image) = true <;>
      simp [submit_task, is_model_available, h]

/-- Helper: normalize_scores only rewrites scores; the stream's path
sequence is unchanged. -/
theorem normalize_scores_paths (l : List SemResult) :
    (normalize_scores l).map SemResult.path = l.map SemResult.path := by
  cases l with
  | nil => rfl
  | cons x xs =>
    simp only [normalize_scores]
    split <;> (rw [List.map_map]; rfl)

/-- Helper: a path-preserving update that fixes every entry at the key
leaves the combined-map entry at the key unchanged. -/
theorem findPath_map_of_fix (p : String) (g : SemResult → SemResult)
    (hpath : ∀ x, (g x).path = x.path)
    (hfix : ∀ x, (x.path == p) = true → g x = x) :
    ∀ m : List SemResult, findPath (m.map g) p = findPath m p := by
  intro m
  induction m with
  | nil => rfl
  | cons hd tl ih =>
    by_cases hh : (hd.path == p) = true
    · have hgh : ((g hd).path == p) = true := by rw [hpath hd]; exact hh
      unfold findPath
      rw [List.map_cons]
      simp only [List.find?_cons, hgh, hh]
      rw [hfix hd hh]
    · rw [Bool.not_eq_true] at hh
      have hgh : ((g hd).path == p) = false := by rw [hpath hd]; exact hh
      unfold findPath
      rw [List.map_cons]
      simp only [List.find?_cons, hgh, hh]
      exact ih

/-- Helper: merging an entry with a different path does not change the
combined-map entry at p. -/
theorem findPath_merge_one_of_ne (m : List SemResult) (r : SemResult) (p : String)
    (hne : (r.path == p) = false) :
    findPath (merge_one m r) p = findPath m p := by
  unfold merge_one
  by_cases hany : (m.any (fun x => x.path == r.path)) = true
  · rw [if_pos hany]
    apply findPath_map_of_fix
    · intro x
      by_cases hx : (x.path == r.path) = true <;> simp [hx]
    · intro x hxp
      have hxpe : x.path = p := beq_iff_eq.mp hxp
      have hxr : (x.path == r.path) = false := by
        by_contra hcon
        rw [Bool.not_eq_false, beq_iff_eq] at hcon
        rw [hxpe] at hcon
        rw [← hcon] at hne
        simp at hne
      simp [hxr]
  · rw [if_neg hany]
    unfold findPath
    rw [List.find?_append]
    cases hfm : m.find? (fun x => x.path == p) with
    | some v => rfl
    | none => simp [List.find?_cons, hne]

/-- Helper: folding entries none of which carries path p preserves the
combined-map entry at p. -/
theorem findPath_foldl_of_not_mem (p : String) :
    ∀ (S m : List SemResult), (∀ r ∈ S, (r.path == p) = false) →
      findPath (S.foldl merge_one m) p = findPath m p := by
  intro S
  induction S with
  | nil => intro m _; rfl
  | cons s S' ih =>
    intro m h
    rw [List.foldl_cons,
      ih (merge_one m s) (fun r hr => h r (List.mem_cons_of_mem _ hr))]
    exact findPath_merge_one_of_ne m s p (h s (List.mem_cons_self _ _))

/-- Helper: merging an entry whose path is already present rewrites the
stored entry at that path to the averaged Hybrid entry, keeping its other
fields. -/
theorem findPath_merge_one_of_found (m : List SemResult) (r a : SemResult)
    (hfound : findPath m r.path = some a) :
    findPath (merge_one m r) r.path =
      some { a with score := (a.score + r.score) / 2, matchType := "Hybrid" } := by
  have hfound0 : m.find? (fun x => x.path == r.path) = some a := hfound
  have hpa0 := List.find?_some hfound0
  have hpa : (a.path == r.path) = true := by simpa using hpa0
  have hany : (m.any (fun x => x.path == r.path)) = true := by
    rw [List.any_eq_true]
    exact ⟨a, List.mem_of_find?_eq_some hfound0, hpa⟩
  unfold merge_one
  rw [if_pos hany]
  exact find?_map_ite (fun x => x.path == r.path)
    (fun x => { x with score := (x.score + r.score) / 2, matchType := "Hybrid" })
    (fun _ => rfl) m a hfound0

/-- Helper: folding a stream with pairwise-distinct paths that contains
exactly one entry for p into a combined map already holding entry a at p
yields the averaged Hybrid entry at p. -/
theorem findPath_foldl_merge (p : String) :
    ∀ (S m : List SemResult) (a b : SemResult),
      (S.map SemResult.path).Nodup →
      findPath m p = some a →
      findPath S p = some b →
      findPath (S.foldl merge_one m) p =
        some { a with score := (a.score + b.score) / 2, matchType := "Hybrid" } := by
  intro S
  induction S with
  | nil =>
    intro m a b _ _ hb
    simp [findPath] at hb
  | cons s S' ih =>
    intro m a b hnd hma hb
    rw [List.map_cons, List.nodup_cons] at hnd
    rw [List.foldl_cons]
    by_cases hs : (s.path == p) = true
    · have hspeq : s.path = p := beq_iff_eq.mp hs
      have hbs : b = s := by
        unfold findPath at hb
        simp only [List.find?_cons, hs] at hb
        exact (Option.some.inj hb).symm
      have hm1 : findPath (merge_one m s) p =
          some { a with score := (a.score + s.score) / 2, matchType := "Hybrid" } := by
        have hstep := findPath_merge_one_of_found m s a (by rw [hspeq]; exact hma)
        rw [hspeq] at hstep
        exact hstep
      have hS' : ∀ r ∈ S', (r.path == p) = false := by
        intro r hr
        by_contra hcon
        rw [Bool.not_eq_false, beq_iff_eq] at hcon
        apply hnd.1
        rw [hspeq, ← hcon]
        exact List.mem_map_of_mem _ hr
      rw [findPath_foldl_of_not_mem p S' (merge_one m s) hS', hm1, hbs]
    · rw [Bool.not_eq_true] at hs
      have hb' : findPath S' p = some b := by
        unfold findPath at hb ⊢
        simp only [List.find?_cons, hs] at hb
        exact hb
      have hma' : findPath (merge_one m s) p = some a := by
        rw [findPath_merge_one_of_ne m s p hs]
        exact hma
      exact ih (merge_one m s) a b hnd.2 hma' hb'

/-- Helper: folding a stream with pairwise-distinct paths, all absent from
the accumulator, appends the stream. -/
theorem foldl_merge_one_disjoint :
    ∀ (L m : List SemResult),
      (L.map SemResult.path).Nodup →
      (∀ r ∈ L, (m.any (fun x => x.path == r.path)) = false) →
      L.foldl merge_one m = m ++ L := by
  intro L
  induction L with
  | nil => intro m _ _; simp
  | cons s L' ih =>
    intro m hnd hdis
    rw [List.map_cons, List.nodup_cons] at hnd
    rw [List.foldl_cons]
    have hms : merge_one m s = m ++ [s] := by
      unfold merge_one
      rw [if_neg]
      rw [hdis s (List.mem_cons_self _ _)]
      simp
    rw [hms, ih (m ++ [s]) hnd.2]
    · simp
    · intro r hr
      rw [List.any_append]
      have h1 : (m.any (fun x => x.path == r.path)) = false :=
        hdis r (List.mem_cons_of_mem _ hr)
      have h2 : (s.path == r.path) = false := by
        by_contra hcon
        rw [Bool.not_eq_false, beq_iff_eq] at hcon
        apply hnd.1
        rw [hcon]
        exact List.mem_map_of_mem _ hr
      rw [h1]
      simp [h2]

/-- C3 counterexample: a path at rank 0 of both streams receives fused
score 1 (both one-element streams normalize to score 1 and the collision
averages them), not 1/61 + 1/61 — hybrid_search performs min-max
normalization plus score averaging, not Reciprocal Rank Fusion. -/
theorem c3_counterexample :
    hybrid_fuse [⟨"a.txt", "alpha beta", "text", 5, "Lexical"⟩]
        [⟨"a.txt", "alpha beta", "text", 7 / 10, "Semantic"⟩] =
      [⟨"a.txt", "alpha beta", "text", 1, "Hybrid"⟩] ∧
    (1 : ℚ) ≠ 1 / 61 + 1 / 61 := by
  constructor
  · norm_num [hybrid_fuse, normalize_scores, merge_one, List.foldl]
  · norm_num

/-- C3 corrected: hybrid_search fuses the two streams by min-max
normalization and per-path score averaging, not by Reciprocal Rank
Fusion: for streams with pairwise-distinct paths, a path present in both
streams ends up in the combined map with the arithmetic mean of its two
normalized scores and match_type Hybrid, the other fields coming from its
lexical entry.  No 1/(60+r+1) term exists anywhere in the computation. -/
theorem c3_fusion_amended (lex sem : List SemResult) (p : String) (a b : SemResult)
    (hnl : (lex.map SemResult.path).Nodup)
    (hns : (sem.map SemResult.path).Nodup)
    (ha : findPath (normalize_scores lex) p = some a)
    (hb : findPath (normalize_scores sem) p = some b) :
    findPath (hybrid_fuse lex sem) p =
      some { a with score := (a.score + b.score) / 2, matchType := "Hybrid" } := by
  have hnl' : ((normalize_scores lex).map SemResult.path).Nodup := by
    rw [normalize_scores_paths]
    exact hnl
  have hns' : ((normalize_scores sem).map SemResult.path).Nodup := by
    rw [normalize_scores_paths]
    exact hns
  unfold hybrid_fuse
  have hm0 : (normalize_scores lex).foldl merge_one [] = normalize_scores lex := by
    have h := foldl_merge_one_disjoint (normalize_scores lex) [] hnl' (fun r _ => rfl)
    simpa using h
  rw [hm0]
  exact findPath_foldl_merge p (normalize_scores sem) (normalize_scores lex) a b hns' ha hb

/-- Witness for C3's amended theorem at concrete two-element streams whose
shared path collapses to the averaged Hybrid entry. -/
theorem c3_fusion_amended_witness :
    (([(⟨"a.txt", "alpha", "text", 5, "Lexical"⟩ : SemResult),
        ⟨"b.txt", "beta", "text", 5, "Lexical"⟩].map SemResult.path).Nodup ∧
      ([(⟨"a.txt", "gamma", "text", 2, "Semantic"⟩ : SemResult)].map SemResult.path).Nodup) ∧
    findPath
      (hybrid_fuse
        [⟨"a.txt", "alpha", "text", 5, "Lexical"⟩, ⟨"b.txt", "beta", "text", 5, "Lexical"⟩]
        [⟨"a.txt", "gamma", "text", 2, "Semantic"⟩]) "a.txt" =
      some ⟨"a.txt", "alpha", "text", (1 + 1) / 2, "Hybrid"⟩ :=
  ⟨⟨by decide, by decide⟩,
    c3_fusion_amended
      [⟨"a.txt", "alpha", "text", 5, "Lexical"⟩, ⟨"b.txt", "beta", "text", 5, "Lexical"⟩]
      [⟨"a.txt", "gamma", "text", 2, "Semantic"⟩] "a.txt"
      ⟨"a.txt", "alpha", "text", 1, "Lexical"⟩ ⟨"a.txt", "gamma", "text", 1, "Semantic"⟩
      (by decide) (by decide) (by decide) (by decide)⟩

/-- C9 counterexample: a store whose only embedding row was produced by a
different model than the querying embedder still yields that row as a
scored semantic result — get_semantic never filters by model_name. -/
theorem c9_counterexample :
    get_semantic
      (Db.mk [] [] [⟨"a.txt", 0, "chunk text", "BLOB", "other-model"⟩] [] [])
      "text" (fun _ => 1) true [".txt"] none 20 =
      [⟨"a.txt", "chunk text", "text", 1, "Semantic"⟩] := by
  decide

/-- C9 corrected: the semantic stream's output is invariant under arbitrary
rewriting of the stored model_name values: the SELECT filters rows by
extension and folder prefix only, so embeddings produced by any model
enter the similarity computation and the results. -/
theorem c9_semantic_ignores_model_name (db : Db) (f : String → String) (stype : String)
    (sim : String → ℚ) (modelLoaded : Bool) (valid_exts : List String)
    (folder : Option String) (top_k : ℕ) :
    get_semantic (db.withModelNames f) stype sim modelLoaded valid_exts folder top_k =
      get_semantic db stype sim modelLoaded valid_exts folder top_k := by
  by_cases hml : (!modelLoaded || valid_exts.isEmpty) = true
  · unfold get_semantic Db.withModelNames
    rw [if_pos hml, if_pos hml]
  · unfold get_semantic Db.withModelNames
    rw [if_neg hml, if_neg hml]
    have hrows : (db.embeddings.map (fun r => { r with model_name := f r.model_name })).filter
        (fun r => pathEndsWithAny r.path valid_exts && folderOk folder r.path) =
        (db.embeddings.filter
          (fun r => pathEndsWithAny r.path valid_exts && folderOk folder r.path)).map
            (fun r => { r with model_name := f r.model_name }) := by
      rw [List.filter_map]
      rfl
    rw [hrows]
    have hfold : bestPerFileSem stype sim
        ((db.embeddings.filter
          (fun r => pathEndsWithAny r.path valid_exts && folderOk folder r.path)).map
            (fun r => { r with model_name := f r.model_name })) =
        bestPerFileSem stype sim
          (db.embeddings.filter
            (fun r => pathEndsWithAny r.path valid_exts && folderOk folder r.path)) := by
      unfold bestPerFileSem
      rw [List.foldl_map]
    rw [hfold]

/-- Supporting: the per-chunk save loop of _run_text_batch can never
succeed — every iteration's two-positional-argument call raises TypeError
and is swallowed per chunk — so the batch saves nothing and returns an
empty success list, for EVERY input. -/
theorem run_text_batch_saves_nothing (db : Db) (textLoaded : Bool)
    (parse : String → List (ℤ × String)) (encodeOk : Bool) (vec : ℕ → String)
    (model_name : String) (jobs : List Job) :
    run_text_batch db textLoaded parse encodeOk vec model_name jobs = (db, []) := by
  have hfold : ∀ (l : List (ℕ × ChunkData)) (st : Db × List String),
      l.foldl (fun st x =>
        match database_save_embeddings_apply st.1
            [PyVal.vStr x.2.job_path,
             PyVal.vRows4 [(x.2.index, x.2.chunk_text, vec x.1, model_name)]] with
        | Except.ok db1 =>
          (db1, if st.2.contains x.2.job_path then st.2 else st.2 ++ [x.2.job_path])
        | Except.error _ => st) st = st := by
    intro l
    induction l with
    | nil => intro st; rfl
    | cons x xs ih =>
      intro st
      rw [List.foldl_cons]
      exact ih st
  unfold run_text_batch
  split
  · rfl
  · split
    · rfl
    · split
      · rfl
      · exact hfold ((all_chunks_of parse jobs).enum) (db, [])

/-- Supporting: EmbedService defines no attribute run_embed_llm, so the
dispatcher's call site can only raise AttributeError. -/
theorem embedService_missing_run_embed_llm :
    embedServiceAttrs.contains "run_embed_llm" = false := by
  decide

/-- C1 code_bug: a text EMBED batch whose file parses into a chunk and
whose embedder returns vectors still stores NO embedding row, and the
path is marked FAILED instead of DONE: each per-chunk save calls
Database.save_embeddings with two positional arguments (job_path plus a
4-column row list) while the method accepts a single 5-column rows
argument, so every call raises TypeError, caught per chunk, and
successful_paths stays empty. -/
theorem c1_embed_batch_never_saves :
    (execute_batch_embed_text (Db.empty.add_or_update_task "a.txt" "EMBED" "PENDING" 5)
        ⟨false, true, true, false⟩ (fun _ => [(0, "alpha beta")]) true (fun _ => "VEC")
        "text-model" [⟨2, "EMBED", "a.txt"⟩]).embeddings = [] ∧
    (execute_batch_embed_text (Db.empty.add_or_update_task "a.txt" "EMBED" "PENDING" 5)
        ⟨false, true, true, false⟩ (fun _ => [(0, "alpha beta")]) true (fun _ => "VEC")
        "text-model" [⟨2, "EMBED", "a.txt"⟩]).findTask "a.txt" "EMBED" =
      some ⟨"a.txt", "EMBED", "FAILED", 5⟩ := by
  exact ⟨rfl, rfl⟩

/-- C8 code_bug: with the text embedder loaded and an LLM artifact stored
for the path, executing the EMBED_LLM job marks the task FAILED and
stores no chunk_index = -1 row: the orchestrator calls
embed_service.run_embed_llm, a method EmbedService does not define, so
the AttributeError is caught and the task FAILED — it can never be
marked DONE. -/
theorem c8_embed_llm_dispatch_fails :
    ((Db.empty.add_or_update_task "a.txt" "EMBED_LLM" "PENDING" 5).save_llm_result "a.txt"
        "summary text" "llm-model").get_llm_result "a.txt" = some "summary text" ∧
    (execute_job_embed_llm
        ((Db.empty.add_or_update_task "a.txt" "EMBED_LLM" "PENDING" 5).save_llm_result "a.txt"
          "summary text" "llm-model") true "a.txt").findTask "a.txt" "EMBED_LLM" =
      some ⟨"a.txt", "EMBED_LLM", "FAILED", 5⟩ ∧
    (execute_job_embed_llm
        ((Db.empty.add_or_update_task "a.txt" "EMBED_LLM" "PENDING" 5).save_llm_result "a.txt"
          "summary text" "llm-model") true "a.txt").embeddings = [] := by
  exact ⟨rfl, rfl, rfl⟩

/-- C5 code_bug: when all worker slots are occupied by hung jobs the
watchdog never fires — the dispatcher blocks in pool_semaphore.acquire()
BEFORE the point of the loop that calls _check_timeouts, and only
_check_timeouts or a completing worker could free a slot.  Hence in every
reachable state, at every elapsed time (in particular beyond
task_timeout + 5 s), the job's row is still PENDING, never FAILED. -/
theorem c5_watchdog_starves (s : DispatchState) (hreach : DispatchReach hungInit s) :
    s.jobStatus = "PENDING" ∧ s.semFree = 0 ∧ s.inLoopBody = false := by
  induction hreach with
  | refl => exact ⟨rfl, rfl, rfl⟩
  | step t u hr hstep ih =>
    cases hstep with
    | tick => exact ⟨ih.1, ih.2.1, ih.2.2⟩
    | acquire h h2 =>
      rw [ih.2.1] at h
      exact absurd h (lt_irrefl 0)
    | timeoutCheck h =>
      rw [ih.2.2] at h
      cases h

/-- Witness for C5's theorem: the initial state itself. -/
theorem c5_watchdog_starves_witness :
    hungInit.jobStatus = "PENDING" ∧ hungInit.semFree = 0 ∧ hungInit.inLoopBody = false :=
  c5_watchdog_starves hungInit (DispatchReach.refl hungInit)

/-- Helper: erasing a different key does not change presence at k. -/
theorem hasKey_eraseKey_ne (m : List (JKey × ℕ)) (k kp : JKey) (h : kp ≠ k) :
    hasKey (eraseKey m kp) k = hasKey m k := by
  unfold eraseKey hasKey
  induction m with
  | nil => rfl
  | cons kv tl ih =>
    rw [List.filter_cons]
    by_cases hkv : kv.1 = kp
    · simp [hkv, h, ih]
    · simp [hkv, ih]

/-- Helper: erasing key k removes presence at k. -/
theorem hasKey_eraseKey_self (m : List (JKey × ℕ)) (k : JKey) :
    hasKey (eraseKey m k) k = false := by
  unfold eraseKey hasKey
  rw [List.any_eq_false]
  intro kv hkv
  rw [List.mem_filter] at hkv
  have h2 := hkv.2
  simp only [Bool.not_eq_eq_eq_not, Bool.not_true] at h2
  simp [h2]

/-- Helper: logging a release for a different key keeps the count at k. -/
theorem countKey_append_ne (l : List JKey) (k kp : JKey) (h : kp ≠ k) :
    countKey (l ++ [kp]) k = countKey l k := by
  unfold countKey
  rw [List.filter_append]
  simp [h]

/-- Helper: logging a release for k increments the count at k. -/
theorem countKey_append_self (l : List JKey) (k : JKey) :
    countKey (l ++ [k]) k = countKey l k + 1 := by
  unfold countKey
  rw [List.filter_append]
  simp

/-- Helper: an event of a job with a different key leaves presence and
release count at key j's key unchanged. -/
theorem localView_poolStep_other (key : ℕ → JKey) (s : PoolState) (e : JEvent) (j : ℕ)
    (hkne : key e.idx ≠ key j) :
    localView (poolStep key s e) (key j) = localView s (key j) := by
  cases e with
  | clockIn j0 =>
    unfold localView poolStep hasKey
    simp only [List.any_cons]
    have h1 : decide ((key j0, j0).1 = key j) = false := by
      simp only [decide_eq_false_iff_not]
      exact hkne
    rw [h1]
    simp only [Bool.false_or]
    have h2 := hasKey_eraseKey_ne s.active (key j) (key j0) hkne
    unfold hasKey at h2
    rw [h2]
  | clockOut j0 =>
    simp only [poolStep]
    split
    · unfold localView
      rw [hasKey_eraseKey_ne s.active (key j) (key j0) hkne,
        countKey_append_ne s.relLog (key j) (key j0) hkne]
    · rfl
  | sweep j0 =>
    simp only [poolStep]
    split
    · unfold localView
      rw [hasKey_eraseKey_ne s.active (key j) (key j0) hkne,
        countKey_append_ne s.relLog (key j) (key j0) hkne]
    · rfl

/-- Helper: an event of job j itself acts on presence and release count at
its key exactly as the single-key machine does. -/
theorem localView_poolStep_self (key : ℕ → JKey) (s : PoolState) (e : JEvent) (j : ℕ)
    (he : e.idx = j) :
    localView (poolStep key s e) (key j) = step1 (localView s (key j)) (projE e) := by
  cases e with
  | clockIn j0 =>
    have hj : j0 = j := he
    subst hj
    unfold localView poolStep projE step1 hasKey
    simp only [List.any_cons]
    simp
  | clockOut j0 =>
    have hj : j0 = j := he
    subst hj
    simp only [poolStep, projE]
    split
    · unfold localView step1
      rename_i hpres
      rw [hpres]
      rw [hasKey_eraseKey_self s.active (key j0), countKey_append_self s.relLog (key j0)]
      simp
    · unfold localView step1
      rename_i hpres
      rw [Bool.not_eq_true] at hpres
      rw [hpres]
      simp
  | sweep j0 =>
    have hj : j0 = j := he
    subst hj
    simp only [poolStep, projE]
    split
    · unfold localView step1
      rename_i hpres
      rw [hpres]
      rw [hasKey_eraseKey_self s.active (key j0), countKey_append_self s.relLog (key j0)]
      simp
    · unfold localView step1
      rename_i hpres
      rw [Bool.not_eq_true] at hpres
      rw [hpres]
      simp

/-- Helper: with injective keys the presence and release count at job j's
key are computed by running the single-key machine over j's subtrace. -/
theorem localView_poolRun (key : ℕ → JKey) (hinj : Function.Injective key) (j : ℕ) :
    ∀ (tr : List JEvent) (s : PoolState),
      localView (tr.foldl (poolStep key) s) (key j) =
        (proj j tr).foldl step1 (localView s (key j)) := by
  intro tr
  induction tr with
  | nil => intro s; rfl
  | cons e tr' ih =>
    intro s
    rw [List.foldl_cons]
    by_cases he : e.idx = j
    · have hproj : proj j (e :: tr') = projE e :: proj j tr' := by
        unfold proj
        rw [List.filter_cons]
        simp [he]
      rw [hproj, List.foldl_cons, ih, localView_poolStep_self key s e j he]
    · have hproj : proj j (e :: tr') = proj j tr' := by
        unfold proj
        rw [List.filter_cons]
        simp [he]
      have hkne : key e.idx ≠ key j := fun hk => he (hinj hk)
      rw [hproj, ih, localView_poolStep_other key s e j hkne]

/-- Helper: sweeps with no entry present are no-ops of the single-key
machine. -/
theorem foldl_step1_swp_false (l : List E1) (n : ℕ) (h : ∀ x ∈ l, x = E1.swp) :
    l.foldl step1 (false, n) = (false, n) := by
  induction l with
  | nil => rfl
  | cons x xs ih =>
    rw [List.foldl_cons]
    rw [h x (List.mem_cons_self _ _)]
    exact ih (fun y hy => h y (List.mem_cons_of_mem _ hy))

/-- Helper: sweeps over a present entry either leave it or remove it with
one logged release. -/
theorem foldl_step1_swp_true (l : List E1) (n : ℕ) (h : ∀ x ∈ l, x = E1.swp) :
    l.foldl step1 (true, n) = (true, n) ∨ l.foldl step1 (true, n) = (false, n + 1) := by
  cases l with
  | nil => exact Or.inl rfl
  | cons x xs =>
    rw [List.foldl_cons, h x (List.mem_cons_self _ _)]
    right
    exact foldl_step1_swp_false xs (n + 1) (fun y hy => h y (List.mem_cons_of_mem _ hy))

/-- Helper: one clock-in followed by one clock-out with sweeps anywhere
around them yields exactly one release. -/
theorem run1_shape (a b c : List E1) (ha : ∀ x ∈ a, x = E1.swp)
    (hb : ∀ x ∈ b, x = E1.swp) (hc : ∀ x ∈ c, x = E1.swp) :
    ((a ++ E1.inn :: (b ++ E1.outt :: c)).foldl step1 (false, 0)).2 = 1 := by
  rw [List.foldl_append, foldl_step1_swp_false a 0 ha, List.foldl_cons]
  show ((b ++ E1.outt :: c).foldl step1 (true, 0)).2 = 1
  rw [List.foldl_append]
  rcases foldl_step1_swp_true b 0 hb with h | h
  · rw [h, List.foldl_cons]
    show (c.foldl step1 (false, 0 + 1)).2 = 1
    rw [foldl_step1_swp_false c (0 + 1) hc]
  · rw [h, List.foldl_cons]
    show (c.foldl step1 (false, 0 + 1)).2 = 1
    rw [foldl_step1_swp_false c (0 + 1) hc]

/-- C6 counterexample: two jobs with the same (path, task_type) key in
flight at once — job 1's clock-in overwrites job 0's active_jobs entry;
job 0's completion finds the key present, removes it and releases; job
1's completion finds the key gone and releases nothing.  Two dispatched
jobs, ONE total release: the slot of one of them is never released, so
release-exactly-once-per-job fails. -/
theorem c6_counterexample :
    (poolRun (fun _ => ("a.png", "OCR"))
      [JEvent.clockIn 0, JEvent.clockIn 1, JEvent.clockOut 0, JEvent.clockOut 1]).relLog =
      [("a.png", "OCR")] := by
  decide

/-- C6 corrected: when no two in-flight jobs share a (path, task_type) key
(keys injective over job indices), each dispatched job's slot is released
exactly once across all completion paths: its subtrace is one clock-in
followed by one clock-out, with watchdog sweeps allowed anywhere, and the
release count logged for its key ends at exactly 1 — released by the
completer or by the watchdog, never by both and never zero. -/
theorem c6_release_exactly_once (key : ℕ → JKey) (hinj : Function.Injective key)
    (tr : List JEvent) (j : ℕ) (a b c : List JEvent)
    (hshape : tr.filter (fun e => decide (e.idx = j)) =
      a ++ JEvent.clockIn j :: (b ++ JEvent.clockOut j :: c))
    (ha : ∀ e ∈ a, e = JEvent.sweep j) (hb : ∀ e ∈ b, e = JEvent.sweep j)
    (hc : ∀ e ∈ c, e = JEvent.sweep j) :
    countKey (poolRun key tr).relLog (key j) = 1 := by
  have hsim := localView_poolRun key hinj j tr ⟨[], []⟩
  have hproj : proj j tr =
      (a.map projE) ++ E1.inn :: ((b.map projE) ++ E1.outt :: (c.map projE)) := by
    unfold proj
    rw [hshape]
    simp [projE]
  have hmap : ∀ (l : List JEvent), (∀ e ∈ l, e = JEvent.sweep j) →
      ∀ x ∈ l.map projE, x = E1.swp := by
    intro l hl x hx
    rcases List.mem_map.mp hx with ⟨e, he, hpe⟩
    rw [hl e he] at hpe
    exact hpe.symm
  have hrun := run1_shape (a.map projE) (b.map projE) (c.map projE)
    (hmap a ha) (hmap b hb) (hmap c hc)
  have hcount : countKey (poolRun key tr).relLog (key j) =
      (localView (poolRun key tr) (key j)).2 := rfl
  rw [hcount]
  unfold poolRun
  rw [hsim, hproj]
  exact hrun

/-- Witness for C6's amended theorem: a single job with key ("", "OCR")
under the injective key family j ↦ (a-repeated-j-times, "OCR"), swept
once by the watchdog while in flight; its release count is exactly 1. -/
theorem c6_release_exactly_once_witness :
    Function.Injective (fun j : ℕ => ((String.mk (List.replicate j 'a'), "OCR") : JKey)) ∧
    countKey
      (poolRun (fun j : ℕ => ((String.mk (List.replicate j 'a'), "OCR") : JKey))
        [JEvent.clockIn 0, JEvent.sweep 0, JEvent.clockOut 0]).relLog
      (String.mk (List.replicate 0 'a'), "OCR") = 1 := by
  have hinj : Function.Injective
      (fun j : ℕ => ((String.mk (List.replicate j 'a'), "OCR") : JKey)) := by
    intro i j h
    have h2 := congrArg (fun q : JKey => q.1.data.length) h
    simpa using h2
  refine ⟨hinj, ?_⟩
  exact c6_release_exactly_once
    (fun j : ℕ => ((String.mk (List.replicate j 'a'), "OCR") : JKey)) hinj
    [JEvent.clockIn 0, JEvent.sweep 0, JEvent.clockOut 0] 0
    [] [JEvent.sweep 0] [] (by decide) (by decide) (by decide) (by decide)

/-- Witness for C10 at a concrete store: a stored positive mtime survives an
update carrying mtime 0 while the status is overwritten. -/
theorem c10_upsert_mtime_guard_witness :
    (Db.empty.add_or_update_task "a.txt" "EMBED" "PENDING" 5).findTask "a.txt" "EMBED" =
        some ⟨"a.txt", "EMBED", "PENDING", 5⟩ ∧
    ((Db.empty.add_or_update_task "a.txt" "EMBED" "PENDING" 5).add_or_update_task
        "a.txt" "EMBED" "FAILED" 0).findTask "a.txt" "EMBED" =
      some ⟨"a.txt", "EMBED", "FAILED", 5⟩ := by
  constructor
  · decide
  · have h := c10_upsert_mtime_guard
      (Db.empty.add_or_update_task "a.txt" "EMBED" "PENDING" 5)
      "a.txt" "EMBED" "FAILED" 0 ⟨"a.txt", "EMBED", "PENDING", 5⟩ (by decide)
    simpa using h
